import Mathlib

/-!
Verification of the concurrent harvesting pipeline in
`prepare_floders.py` (repository wzh172352716/Multimodule).

The Python source is shallowly embedded: network and filesystem effects
are abstracted into oracle data (`LandingOutcome`, `ListingOutcome`,
`DetailPage`, and per-image success booleans), and the stateful job loop
`fetch_and_process` is an explicit fold over a `JobState` that records
the manifest rows appended, the image files written to disk, and the
image counter.  Every definition follows the corresponding Python
function line by line.
-/

namespace Multimodule

/-! ### Decimal rendering of the image counter

Python renders the integer counter in decimal inside the file-name
format string.  `natRepr` is that rendering; its injectivity is what
makes distinct sequence numbers yield distinct file names. -/

/-- Fueled helper computing big-endian decimal digits; structural in the
fuel so that it evaluates inside the kernel. -/
def digits10Go : Nat → Nat → List Nat
  | 0, _ => []
  | fuel+1, n => if n = 0 then [] else digits10Go fuel (n/10) ++ [n % 10]

/-- Big-endian decimal digits of a natural number; the empty list for 0. -/
def digits10 (n : Nat) : List Nat := digits10Go n n

/-- Value of a big-endian decimal digit list. -/
def ofDigits10 (ds : List Nat) : Nat :=
  ds.foldl (fun a d => 10 * a + d) 0

/-- Decimal string rendering of a natural number, as the Python format
string does for the image counter. -/
def natRepr (n : Nat) : String :=
  if n = 0 then "0" else String.mk ((digits10 n).map Nat.digitChar)

/-- Model of Python str.strip as used on extracted text: drop
whitespace characters from both ends of the string.  (Defined over the
character list so that it evaluates inside the kernel.) -/
def strip (s : String) : String :=
  String.mk (((s.data.dropWhile Char.isWhitespace).reverse.dropWhile
    Char.isWhitespace).reverse)

/-- Model of Python int() on the pagination indicator: defined exactly
on nonempty all-digit strings, and failing (raising, in Python terms)
otherwise. -/
def parseNat? (s : String) : Option Nat :=
  if !s.data.isEmpty && s.data.all Char.isDigit then
    some (s.data.foldl (fun a c => 10 * a + (c.toNat - '0'.toNat)) 0)
  else none

/-! ### Data model

Network responses are abstracted into oracle values describing what each
request would yield; exceptions raised by the Python code correspond to
the failure constructors. -/

/-- Outcome of fetching and parsing a category landing page inside
`page_get`: either the request raises (caught by the except branch), or
it succeeds and the total-pages xpath yields a list of strings (empty
when the pagination indicator is absent). -/
inductive LandingOutcome where
  | fetchFail
  | ok (total_pages : List String)
deriving DecidableEq

/-- One item node of a listing page, as seen by `get_data`: the xpath
results for the item name and for the item link (each a list of
strings, empty when the node lacks that part). -/
structure ListingItem where
  names : List String
  hrefs : List String
deriving DecidableEq

/-- Outcome of fetching one listing page inside `get_data`: either the
request raises (caught, yielding the empty dish list), or it succeeds
with a list of item nodes. -/
inductive ListingOutcome where
  | fetchFail
  | ok (items : List ListingItem)
deriving DecidableEq

/-- Outcome of one detail-page visit inside `detail_get`.  `fetchFail`
is a failing request; `noContainer` is a page whose main-content
container is absent (the index access raises); `page paragraphs imgs`
is a successful fetch, where each paragraph is the list of its text
nodes and each element of `imgs` tells whether downloading and writing
that embedded image succeeds. -/
inductive DetailPage where
  | fetchFail
  | noContainer
  | page (paragraphs : List (List String)) (imgs : List Bool)
deriving DecidableEq

/-- One row of the output manifest, as written by `csv_writer.writerow`. -/
structure ManifestRow where
  text : String
  img_path : String
  label : String
deriving DecidableEq

/-! ### The embedded functions -/

/-- Embedding of `page_get`: on a failed fetch the except branch returns 1;
on success it returns the parsed first indicator if the list is nonempty
and the parse succeeds, and 1 otherwise (an unparsable indicator raises
inside the try and is caught). -/
def page_get : LandingOutcome → Nat
  | .fetchFail => 1
  | .ok total_pages =>
    match total_pages with
    | [] => 1
    | t :: _ =>
      match parseNat? t with
      | some n => n
      | none => 1

/-- Site prefix prepended to every item link in `get_data`. -/
def site_base : String := "https://www.food365.com.cn"

/-- Embedding of `get_data`: on a failed fetch the except branch returns
the empty list; otherwise each item node contributes a (name, link)
dish exactly when both its name list and its href list are nonempty,
using the first element of each, with the name stripped and the link
prefixed by the site base. -/
def get_data : ListingOutcome → List (String × String)
  | .fetchFail => []
  | .ok items =>
    items.filterMap fun item =>
      match item.names, item.hrefs with
      | n :: _, h :: _ => some (strip n, site_base ++ h)
      | _, _ => none

/-- File name built by `detail_get` for the image numbered `n`:
`os.path.join(output_dir, cuisine + "_" + n + ".jpg")`. -/
def imgPath (output_dir cuisine : String) (n : Nat) : String :=
  output_dir ++ "/" ++ cuisine ++ "_" ++ natRepr n ++ ".jpg"

/-- Embedding of the image-download loop of `detail_get`.  Given the
per-image success flags and the current counter, it returns
(`some` of the collected path list if every image succeeded, else
`none` because the raised exception aborts the loop; the counter after
the loop; the list of files actually written to disk, in order).
Each successful image is written to the path built from the current
counter value, and only then is the counter incremented. -/
def download_images (output_dir cuisine : String) :
    List Bool → Nat → Option (List String) × Nat × List String
  | [], c => (some [], c, [])
  | ok :: rest, c =>
    if ok then
      match download_images output_dir cuisine rest (c+1) with
      | (some paths, c2, w) =>
        (some (imgPath output_dir cuisine c :: paths), c2,
          imgPath output_dir cuisine c :: w)
      | (none, c2, w) => (none, c2, imgPath output_dir cuisine c :: w)
    else (none, c, [])

/-- Embedding of the paragraph-text comprehension of `detail_get`: each
paragraph's text nodes are joined, stripped, and kept when nonempty. -/
def paragraph_texts (paragraphs : List (List String)) : List String :=
  (paragraphs.map fun p => strip (String.join p)).filter fun t => !(t == "")

/-- Embedding of `text_content`: the kept paragraph texts joined with a
single space. -/
def text_content (paragraphs : List (List String)) : String :=
  String.intercalate " " (paragraph_texts paragraphs)

/-- Result of one `detail_get` call: the returned triple (text, image
path list, counter) plus the list of image files written to disk during
the call (the Python function's filesystem effect). -/
structure DetailResult where
  text : String
  img_paths : List String
  img_counter : Nat
  written : List String
deriving DecidableEq

/-- Embedding of `detail_get`.  A failed fetch or a missing main-content
container raises, and the except branch returns empty text, no paths,
and the counter unchanged.  Otherwise the text is extracted, then the
images are downloaded one by one; if any image fails, the exception
aborts the function and the except branch returns empty text and no
paths, but with the counter advanced by the images already written
(which stay on disk). -/
def detail_get (page : DetailPage) (output_dir cuisine : String)
    (img_counter : Nat) : DetailResult :=
  match page with
  | .fetchFail => ⟨"", [], img_counter, []⟩
  | .noContainer => ⟨"", [], img_counter, []⟩
  | .page paragraphs imgs =>
    match download_images output_dir cuisine imgs img_counter with
    | (some paths, c2, w) => ⟨text_content paragraphs, paths, c2, w⟩
    | (none, c2, w) => ⟨"", [], c2, w⟩

/-- Oracle describing what every request of one category job would
yield: the landing-page outcome, the outcome of each numbered listing
page, and the outcome of each detail link. -/
structure JobEnv where
  landing : LandingOutcome
  listing : Nat → ListingOutcome
  detail : String → DetailPage

/-- Observable state of one category job: manifest rows appended so far
(in order), image files written to disk so far (in order), and the
image counter. -/
structure JobState where
  rows : List ManifestRow
  disk : List String
  img_counter : Nat
deriving DecidableEq

/-- The image directory hard-coded at the `detail_get` call site in
`fetch_and_process`; it is the same for every category. -/
def images_dir : String := "./CAIXI/CAIPING_data/images"

/-- Embedding of the body of the inner dish loop of `fetch_and_process`:
fetch the dish's detail page, then append one manifest row per returned
image path, labelled with the cuisine. -/
def process_dish (env : JobEnv) (cuisine : String) (s : JobState)
    (dish : String × String) : JobState :=
  let r := detail_get (env.detail dish.2) images_dir cuisine s.img_counter
  { rows := s.rows ++ r.img_paths.map fun p => ⟨r.text, p, cuisine⟩
    disk := s.disk ++ r.written
    img_counter := r.img_counter }

/-- Embedding of one iteration of the page loop of `fetch_and_process`:
fetch the listing page and process each dish on it in order. -/
def process_page (env : JobEnv) (cuisine : String) (s : JobState)
    (page : Nat) : JobState :=
  (get_data (env.listing page)).foldl (process_dish env cuisine) s

/-- Embedding of `fetch_and_process`: resolve the page count from the
landing page, then process pages 1 through that count in order,
starting from the counter value the job was given. -/
def fetch_and_process (env : JobEnv) (cuisine : String)
    (img_counter : Nat) : JobState :=
  (List.range' 1 (page_get env.landing)).foldl (process_page env cuisine)
    ⟨[], [], img_counter⟩

/-- The configured (url, category, cuisine) triples of `main`. -/
def urls_cuisines : List (String × String × String) :=
  [("https://www.food365.com.cn/caixi/lucai/", "caixi", "lucai"),
   ("https://www.food365.com.cn/caixi/huicai/", "caixi", "huicai")]

/-- Embedding of `main`: one category job per configured triple, each
submitted with the integer counter 1 passed by value, so every job owns
an independent counter.  Given an oracle per source url, it returns the
final state of each job. -/
def main_run (envOf : String → JobEnv) : List JobState :=
  urls_cuisines.map fun t => fetch_and_process (envOf t.1) t.2.2 1

/-- Invariant tying a job state to the counter value it started from:
the files on disk are exactly those numbered from the start value up to
the current counter. -/
def DiskInv (cu : String) (c0 : Nat) (s : JobState) : Prop :=
  ∃ m, s.img_counter = c0 + m ∧
    s.disk = (List.range' c0 m).map (imgPath images_dir cu)

/-! ### Concrete oracles used in witnesses and counterexamples -/

/-- Oracle with a one-page category (pagination indicator "1"), a
single listing item, and the same given outcome for every detail link. -/
def simpleEnv (d : DetailPage) : JobEnv :=
  ⟨.ok ["1"], fun _ => .ok [⟨["Dish"], ["/d.html"]⟩], fun _ => d⟩

/-- Oracle whose landing-page fetch fails, with a single listing item
on every listing page and the same given outcome for every detail
link. -/
def landingFailEnv (d : DetailPage) : JobEnv :=
  ⟨.fetchFail, fun _ => .ok [⟨["Dish"], ["/d.html"]⟩], fun _ => d⟩

/-- Two-page oracle whose first listing page fails to fetch while the
second holds one item with one successful image. -/
def pageFailEnv : JobEnv :=
  ⟨.ok ["2"], fun p => if p = 1 then .fetchFail else .ok [⟨["Dish"], ["/d.html"]⟩],
    fun _ => .page [["t"]] [true]⟩

/-- Same oracle as `pageFailEnv` except that its first listing page
fetches successfully but holds no items. -/
def pageEmptyEnv : JobEnv :=
  ⟨.ok ["2"], fun p => if p = 1 then .ok [] else .ok [⟨["Dish"], ["/d.html"]⟩],
    fun _ => .page [["t"]] [true]⟩

/-! ### Basic lemmas about the embedded functions -/

lemma digits10Go_eq_self (m : Nat) : ∀ fuel, m ≤ fuel →
    digits10Go fuel m = digits10Go m m := by
  induction m using Nat.strong_induction_on with
  | _ m ih =>
    intro fuel hf
    match m, fuel with
    | 0, 0 => rfl
    | 0, fuel+1 => simp [digits10Go]
    | m+1, fuel+1 =>
      have hdiv : (m+1)/10 < m+1 := Nat.div_lt_self (Nat.succ_pos m) (by omega)
      rw [digits10Go, digits10Go, if_neg (Nat.succ_ne_zero m),
        if_neg (Nat.succ_ne_zero m),
        ih ((m+1)/10) hdiv fuel (by omega),
        ih ((m+1)/10) hdiv m (by omega)]

/-- Unfolding equation for `digits10` on a positive argument. -/
lemma digits10_succ (n : Nat) :
    digits10 (n+1) = digits10 ((n+1)/10) ++ [(n+1) % 10] := by
  have hdiv : (n+1)/10 < n+1 := Nat.div_lt_self (Nat.succ_pos n) (by omega)
  rw [digits10, digits10Go, if_neg (Nat.succ_ne_zero n),
    digits10Go_eq_self ((n+1)/10) n (by omega)]
  rfl

lemma ofDigits10_append_single (ds : List Nat) (d : Nat) :
    ofDigits10 (ds ++ [d]) = 10 * ofDigits10 ds + d := by
  simp [ofDigits10, List.foldl_append]

lemma ofDigits10_digits10 (n : Nat) : ofDigits10 (digits10 n) = n := by
  induction n using Nat.strong_induction_on with
  | _ n ih =>
    match n with
    | 0 => simp [digits10, digits10Go, ofDigits10]
    | n+1 =>
      rw [digits10_succ, ofDigits10_append_single,
        ih ((n+1)/10) (Nat.div_lt_self (Nat.succ_pos n) (by omega))]
      omega

lemma digits10_injective {m n : Nat} (h : digits10 m = digits10 n) : m = n := by
  have := congrArg ofDigits10 h
  rwa [ofDigits10_digits10, ofDigits10_digits10] at this

lemma digits10_lt (n : Nat) : ∀ d ∈ digits10 n, d < 10 := by
  induction n using Nat.strong_induction_on with
  | _ n ih =>
    match n with
    | 0 => simp [digits10, digits10Go]
    | n+1 =>
      intro d hd
      rw [digits10_succ] at hd
      rcases List.mem_append.1 hd with h | h
      · exact ih ((n+1)/10) (Nat.div_lt_self (Nat.succ_pos n) (by omega)) d h
      · simp at h
        omega

lemma digitChar_inj {a b : Nat} (ha : a < 10) (hb : b < 10)
    (h : Nat.digitChar a = Nat.digitChar b) : a = b := by
  interval_cases a <;> interval_cases b <;> revert h <;> decide

lemma map_digitChar_inj : ∀ (xs ys : List Nat), (∀ x ∈ xs, x < 10) →
    (∀ y ∈ ys, y < 10) → xs.map Nat.digitChar = ys.map Nat.digitChar → xs = ys
  | [], [], _, _, _ => rfl
  | x :: xs, y :: ys, hx, hy, h => by
    simp only [List.map_cons, List.cons.injEq] at h
    have hxy : x = y :=
      digitChar_inj (hx x (List.mem_cons_self x xs)) (hy y (List.mem_cons_self y ys)) h.1
    have : xs = ys :=
      map_digitChar_inj xs ys (fun a ha => hx a (List.mem_cons_of_mem _ ha))
        (fun a ha => hy a (List.mem_cons_of_mem _ ha)) h.2
    rw [hxy, this]

lemma natRepr_inj {m n : Nat} (h : natRepr m = natRepr n) : m = n := by
  unfold natRepr at h
  by_cases hm : m = 0 <;> by_cases hn : n = 0
  · omega
  · rw [if_pos hm, if_neg hn] at h
    have hdata := congrArg String.data h
    have h0 : ("0" : String).data = List.map Nat.digitChar [0] := rfl
    simp only [h0] at hdata
    have := map_digitChar_inj [0] (digits10 n) (by simp) (digits10_lt n) hdata
    have hn0 : n = 0 := by
      have := congrArg ofDigits10 this
      rw [ofDigits10_digits10] at this
      simpa [ofDigits10] using this.symm
    omega
  · rw [if_neg hm, if_pos hn] at h
    have hdata := congrArg String.data h
    have h0 : ("0" : String).data = List.map Nat.digitChar [0] := rfl
    simp only [h0] at hdata
    have := map_digitChar_inj (digits10 m) [0] (digits10_lt m) (by simp) hdata
    have hm0 : m = 0 := by
      have := congrArg ofDigits10 this
      rw [ofDigits10_digits10] at this
      simpa [ofDigits10] using this
    omega
  · rw [if_neg hm, if_neg hn] at h
    have hdata := congrArg String.data h
    simp only [String.data] at hdata
    exact digits10_injective
      (map_digitChar_inj (digits10 m) (digits10 n) (digits10_lt m) (digits10_lt n) hdata)

lemma imgPath_inj (dir cu : String) {m n : Nat}
    (h : imgPath dir cu m = imgPath dir cu n) : m = n := by
  unfold imgPath at h
  have hd := congrArg String.data h
  simp only [String.data_append, List.append_assoc] at hd
  have h1 := List.append_cancel_left hd
  have h2 := List.append_cancel_left h1
  have h3 := List.append_cancel_left h2
  have h4 := List.append_cancel_left h3
  have h5 := List.append_cancel_right h4
  exact natRepr_inj (String.ext h5)

lemma imgPath_injective (dir cu : String) :
    Function.Injective (imgPath dir cu) := fun _ _ h => imgPath_inj dir cu h

lemma takeWhile_id_of_all {l : List Bool} (h : l.all (fun b => b) = true) :
    l.takeWhile (fun b => b) = l :=
  List.takeWhile_eq_self_iff.2 (by simpa [List.all_eq_true] using h)

/-- Closed form of the download loop: the returned path list is `some`
of the full range exactly when every image succeeds; the counter
advances by one per image written; and the files written are those
numbered from the initial counter, one per success before the first
failure. -/
lemma download_images_eq (dir cu : String) (imgs : List Bool) (c : Nat) :
    download_images dir cu imgs c =
      ((if imgs.all (fun b => b) then
          some ((List.range' c imgs.length).map (imgPath dir cu)) else none),
        c + (imgs.takeWhile (fun b => b)).length,
        (List.range' c (imgs.takeWhile (fun b => b)).length).map
          (imgPath dir cu)) := by
  induction imgs generalizing c with
  | nil => simp [download_images]
  | cons ok rest ih =>
    cases ok with
    | false => simp [download_images, List.takeWhile_cons]
    | true =>
      have hrec := ih (c+1)
      cases hall : rest.all (fun b => b) with
      | true =>
        have hfr : false ∉ rest := by
          intro hmem
          have h1 := List.all_eq_true.mp hall false hmem
          simp at h1
        rw [download_images, hrec, hall, takeWhile_id_of_all hall]
        simp [List.range'_succ, List.takeWhile_cons, takeWhile_id_of_all hall,
          Nat.add_comm, Nat.add_assoc, Nat.add_left_comm, hfr]
      | false =>
        have hfr : false ∈ rest := by
          rcases List.all_eq_false.mp hall with ⟨b, hb, hbp⟩
          cases b
          · exact hb
          · simp at hbp
        rw [download_images, hrec, hall]
        simp [List.takeWhile_cons, hfr, Nat.add_comm, Nat.add_assoc,
          Nat.add_left_comm]
        rw [Nat.add_comm 1 _, List.range'_succ]
        simp

/-- The files a `detail_get` call writes are exactly those numbered from
the incoming counter up to the returned counter, and the returned
counter is the incoming counter plus the number of files written. -/
lemma detail_get_written (page : DetailPage) (dir cu : String) (c : Nat) :
    ∃ L, (detail_get page dir cu c).img_counter = c + L ∧
      (detail_get page dir cu c).written =
        (List.range' c L).map (imgPath dir cu) := by
  cases page with
  | fetchFail => exact ⟨0, by simp [detail_get], by simp [detail_get]⟩
  | noContainer => exact ⟨0, by simp [detail_get], by simp [detail_get]⟩
  | page paras imgs =>
    refine ⟨(imgs.takeWhile (fun b => b)).length, ?_, ?_⟩ <;>
      · rw [detail_get, download_images_eq]
        cases himgs : imgs.all (fun b => b) with
        | false => simp
        | true => simp [takeWhile_id_of_all himgs]

/-- Every image path returned by `detail_get` is one of the files it
wrote. -/
lemma detail_get_paths_written (page : DetailPage) (dir cu : String)
    (c : Nat) : ∀ p ∈ (detail_get page dir cu c).img_paths,
      p ∈ (detail_get page dir cu c).written := by
  cases page with
  | fetchFail => simp [detail_get]
  | noContainer => simp [detail_get]
  | page paras imgs =>
    rw [detail_get, download_images_eq]
    cases himgs : imgs.all (fun b => b) with
    | false => simp
    | true =>
      rw [takeWhile_id_of_all himgs]
      simp

/-- A fold preserves any invariant preserved by each step. -/
lemma foldl_preserves {α β : Type} (P : β → Prop) (f : β → α → β)
    (hstep : ∀ s x, P s → P (f s x)) :
    ∀ (l : List α) (s : β), P s → P (l.foldl f s)
  | [], _, hs => hs
  | x :: l, s, hs => foldl_preserves P f hstep l (f s x) (hstep s x hs)

lemma process_dish_diskInv (env : JobEnv) (cu : String) (c0 : Nat) :
    ∀ (s : JobState) (dish : String × String), DiskInv cu c0 s →
      DiskInv cu c0 (process_dish env cu s dish) := by
  rintro s dish ⟨m, hc, hd⟩
  obtain ⟨L, hc2, hw⟩ :=
    detail_get_written (env.detail dish.2) images_dir cu s.img_counter
  refine ⟨m + L, ?_, ?_⟩
  · simp only [process_dish]
    omega
  · simp only [process_dish]
    rw [hd, hw, hc, ← List.map_append]
    congr 1
    have h := List.range'_append c0 m L 1
    rw [Nat.one_mul] at h
    rw [Nat.add_comm m L]
    exact h

lemma fetch_and_process_diskInv (env : JobEnv) (cu : String) (c0 : Nat) :
    DiskInv cu c0 (fetch_and_process env cu c0) := by
  unfold fetch_and_process
  refine foldl_preserves (DiskInv cu c0) (process_page env cu) ?_ _ _
    ⟨0, by simp, by simp⟩
  intro s page hs
  exact foldl_preserves (DiskInv cu c0) (process_dish env cu)
    (process_dish_diskInv env cu c0) _ s hs

/-- The disk trace of a whole category job is the image of a contiguous
number range under the path-building function. -/
lemma fetch_and_process_disk_nodup (env : JobEnv) (cu : String)
    (c0 : Nat) : (fetch_and_process env cu c0).disk.Nodup := by
  obtain ⟨m, _, hd⟩ := fetch_and_process_diskInv env cu c0
  rw [hd]
  exact (List.nodup_range' c0 m).map (imgPath_injective images_dir cu)

/-- A fold is unchanged when the step function is replaced pointwise. -/
lemma foldl_fn_congr {α β : Type} (f g : β → α → β)
    (h : ∀ s x, f s x = g s x) :
    ∀ (l : List α) (s : β), l.foldl f s = l.foldl g s
  | [], _ => rfl
  | x :: l, s => by
    rw [List.foldl_cons, List.foldl_cons, h s x]
    exact foldl_fn_congr f g h l (g s x)

/-! ### The claims -/

/-- C1: for every harvest run and every category, the file names of the
successfully downloaded images of that category are pairwise distinct:
the counter is read and incremented exactly once per successful write,
so successive writes of one job use consecutive sequence numbers, and
`natRepr` injectivity turns distinct numbers into distinct file names.
Concurrency cannot mix the numbering because `main` passes the integer
counter to each job by value: each category job owns an independent
counter and the per-category trace is exactly the sequential job trace,
as reflected by `main_run`.  (First conjunct: any job, any starting
counter; second conjunct: the configured run of `main`.) -/
theorem C1_unique_filenames_per_category :
    (∀ (env : JobEnv) (cuisine : String) (c0 : Nat),
        (fetch_and_process env cuisine c0).disk.Nodup) ∧
      ∀ envOf : String → JobEnv,
        (main_run envOf).Forall fun s => s.disk.Nodup := by
  refine ⟨fun env cu c0 => fetch_and_process_disk_nodup env cu c0,
    fun envOf => ?_⟩
  simp only [main_run, urls_cuisines, List.map_cons, List.map_nil,
    List.forall_cons, List.Forall]
  exact ⟨fetch_and_process_disk_nodup _ _ _,
    fetch_and_process_disk_nodup _ _ _⟩

/-- C2 counterexample: an item whose detail page has three images, of
which the second fails.  The first image is downloaded successfully
(it is the one file on disk), yet the run appends no manifest row at
all: the successfully downloaded image of the item does not contribute
a row, contradicting the claim that only the single failing image is
skipped. -/
theorem C2_counterexample :
    (fetch_and_process (simpleEnv (.page [["txt"]] [true, false, true]))
        "lucai" 1).rows = [] ∧
      (fetch_and_process (simpleEnv (.page [["txt"]] [true, false, true]))
          "lucai" 1).disk =
        ["./CAIXI/CAIPING_data/images/lucai_1.jpg"] := by
  decide

/-- C2 amended: when downloading one of an item's images fails, the
whole item is abandoned, not just that image: the images after the
failing one are never attempted, and no image of the item — including
those already downloaded successfully — contributes a manifest row; the
counter still advances by the number of files written before the
failure, and the job continues with the next item. -/
theorem C2_image_failure_skips_whole_item (env : JobEnv)
    (cuisine : String) (s : JobState) (dish : String × String)
    (paragraphs : List (List String)) (imgs : List Bool)
    (hd : env.detail dish.2 = .page paragraphs imgs)
    (hf : false ∈ imgs) :
    (process_dish env cuisine s dish).rows = s.rows ∧
      (process_dish env cuisine s dish).img_counter =
        s.img_counter + (imgs.takeWhile fun b => b).length ∧
      (process_dish env cuisine s dish).disk =
        s.disk ++ (List.range' s.img_counter
          (imgs.takeWhile fun b => b).length).map (imgPath images_dir cuisine) := by
  have hall : imgs.all (fun b => b) = false :=
    List.all_eq_false.mpr ⟨false, hf, by simp⟩
  simp [process_dish, hd, detail_get, download_images_eq, hall]

/-- C2 witness: the amended statement evaluated on the concrete
failing-item oracle. -/
theorem C2_image_failure_skips_whole_item_witness :
    (process_dish (simpleEnv (.page [["txt"]] [true, false, true]))
        "lucai" ⟨[], [], 1⟩ ("Dish", "/d.html")).rows = [] ∧
      (process_dish (simpleEnv (.page [["txt"]] [true, false, true]))
          "lucai" ⟨[], [], 1⟩ ("Dish", "/d.html")).img_counter = 2 ∧
      (process_dish (simpleEnv (.page [["txt"]] [true, false, true]))
          "lucai" ⟨[], [], 1⟩ ("Dish", "/d.html")).disk =
        [imgPath images_dir "lucai" 1] :=
  C2_image_failure_skips_whole_item
    (simpleEnv (.page [["txt"]] [true, false, true])) "lucai" ⟨[], [], 1⟩
    ("Dish", "/d.html") [["txt"]] [true, false, true] rfl (by decide)

/-- C3 counterexample: an oracle whose landing-page fetch fails, while
its first listing page would succeed with one item carrying one image.
The run appends a manifest row: a listing page was attempted and work
was done, so the job did not terminate in a failed state with no
listing pages attempted, contradicting the claim. -/
theorem C3_counterexample :
    (landingFailEnv (.page [["txt"]] [true])).landing =
        LandingOutcome.fetchFail ∧
      (fetch_and_process (landingFailEnv (.page [["txt"]] [true]))
          "lucai" 1).rows =
        [⟨"txt", "./CAIXI/CAIPING_data/images/lucai_1.jpg", "lucai"⟩] := by
  exact ⟨rfl, by decide⟩

/-- C3 amended: if the fetch of the landing page fails during
pagination resolution, `page_get` catches the error, logs it, and
returns a page count of 1; the job does not terminate but proceeds to
attempt the landing page as its single listing page. -/
theorem C3_landing_failure_gives_one_page (env : JobEnv)
    (cuisine : String) (c0 : Nat) (h : env.landing = .fetchFail) :
    page_get env.landing = 1 ∧
      fetch_and_process env cuisine c0 =
        process_page env cuisine ⟨[], [], c0⟩ 1 := by
  constructor
  · rw [h]
    rfl
  · unfold fetch_and_process
    rw [h]
    rfl

/-- C3 witness: the amended statement evaluated on the concrete
failed-landing oracle. -/
theorem C3_landing_failure_gives_one_page_witness :
    page_get (landingFailEnv (.page [["txt"]] [true])).landing = 1 ∧
      fetch_and_process (landingFailEnv (.page [["txt"]] [true]))
          "lucai" 1 =
        process_page (landingFailEnv (.page [["txt"]] [true])) "lucai"
          ⟨[], [], 1⟩ 1 :=
  C3_landing_failure_gives_one_page (landingFailEnv (.page [["txt"]] [true]))
    "lucai" 1 rfl

/-- C4 counterexample: at counter 1, a failed image download or write
returns the counter unchanged at 1 with nothing on disk, and the very
next download then writes the file numbered 1: the number used by the
failed attempt is reused by the next success, so the numbering does not
skip over it and no gap is left, contradicting the claim. -/
theorem C4_counterexample :
    detail_get (.page [] [false]) images_dir "lucai" 1 =
        ⟨"", [], 1, []⟩ ∧
      (detail_get (.page [] [true]) images_dir "lucai" 1).written =
        ["./CAIXI/CAIPING_data/images/lucai_1.jpg"] := by
  decide

/-- C4 amended: the sequence number used in a file name is the counter
value read before the write is attempted, but the counter is
incremented only after a successful write: a failed image leaves the
counter (and the disk) untouched, so its number is reused by the next
successful download rather than being skipped as a gap. -/
theorem C4_counter_advances_only_on_success (dir cuisine : String)
    (rest : List Bool) (c : Nat) :
    download_images dir cuisine (false :: rest) c = (none, c, []) ∧
      (download_images dir cuisine (true :: rest) c).2.2.head? =
        some (imgPath dir cuisine c) := by
  constructor
  · simp [download_images]
  · rw [download_images_eq]
    simp [List.takeWhile_cons, List.range'_succ]

/-- C5: every manifest row appended by a category job refers to an
image file that the job wrote to disk: the rows appended for an item
are exactly its returned image paths, and those are always among the
files written by the same `detail_get` call before the rows are
appended (on any failure the returned path list is empty), so no row
ever lacks a backing file. -/
theorem C5_every_row_has_backing_file (env : JobEnv) (cuisine : String)
    (c0 : Nat) : ∀ r ∈ (fetch_and_process env cuisine c0).rows,
      r.img_path ∈ (fetch_and_process env cuisine c0).disk := by
  have hstep : ∀ (s : JobState) (dish : String × String),
      (∀ r ∈ s.rows, r.img_path ∈ s.disk) →
      ∀ r ∈ (process_dish env cuisine s dish).rows,
        r.img_path ∈ (process_dish env cuisine s dish).disk := by
    intro s dish hs r hr
    simp only [process_dish, List.mem_append] at hr ⊢
    rcases hr with hr | hr
    · exact Or.inl (hs r hr)
    · right
      rcases List.mem_map.1 hr with ⟨p, hp, hrp⟩
      have hw := detail_get_paths_written (env.detail dish.2) images_dir
        cuisine s.img_counter p hp
      rw [← hrp]
      simpa using hw
  unfold fetch_and_process
  refine foldl_preserves (fun s => ∀ r ∈ s.rows, r.img_path ∈ s.disk)
    (process_page env cuisine) ?_ (List.range' 1 (page_get env.landing))
    ⟨[], [], c0⟩ ?_
  · intro s page hs
    exact foldl_preserves _ (process_dish env cuisine) hstep _ s hs
  · simp

/-- C5 witness: the concrete one-image run appends the row for the file
it wrote, and that path is indeed on the run's disk trace. -/
theorem C5_every_row_has_backing_file_witness :
    (⟨"hello", imgPath images_dir "lucai" 1, "lucai"⟩ : ManifestRow).img_path ∈
      (fetch_and_process (simpleEnv (.page [["hello"]] [true]))
        "lucai" 1).disk :=
  C5_every_row_has_backing_file (simpleEnv (.page [["hello"]] [true]))
    "lucai" 1 ⟨"hello", imgPath images_dir "lucai" 1, "lucai"⟩ (by decide)

/-- C6: for every detail page and any number of images all of which
download successfully, the text returned by `detail_get` is the
sequence of non-empty stripped paragraph texts joined with single
spaces, in document order (each paragraph text being the concatenation
of its text nodes). -/
theorem C6_extracted_text_joins_paragraphs (paragraphs : List (List String))
    (m : Nat) (dir cuisine : String) (c : Nat) :
    (detail_get (.page paragraphs (List.replicate m true)) dir cuisine c).text =
      String.intercalate " "
        (((paragraphs.map String.join).map strip).filter fun t => !(t == "")) := by
  have hall : (List.replicate m true).all (fun b => b) = true := by
    simp [List.all_eq_true, List.mem_replicate]
  rw [detail_get, download_images_eq, hall]
  simp only [text_content, paragraph_texts, List.map_map]
  rfl

/-- C7: on a well-formed listing page the extractor returns, in
document order, one (name, link) entry per item node that has both a
name and a link — item nodes missing either are excluded — and every
returned entry therefore has both fields present (stripped name, link
prefixed with the site base). -/
theorem C7_listing_extraction (items : List ListingItem) :
    get_data (.ok items) =
      (items.filter fun item =>
          !item.names.isEmpty && !item.hrefs.isEmpty).map
        fun item => (strip (item.names.headD ""), site_base ++ item.hrefs.headD "") := by
  induction items with
  | nil => rfl
  | cons item rest ih =>
    simp only [get_data] at ih
    rcases item with ⟨ns, hs⟩
    cases ns <;> cases hs <;>
      simp [get_data, List.filterMap_cons, List.filter_cons, ih]

/-- C8: a fetch failure on listing page k does not prevent the later
pages from being attempted: the whole job behaves exactly as if page k
had fetched successfully but been empty — page k contributes zero
entries, and every other page (before and after k) is processed
identically. -/
theorem C8_page_failure_does_not_abort (env env2 : JobEnv)
    (cuisine : String) (c0 : Nat) (k : Nat)
    (hland : env.landing = env2.landing)
    (hk : env.listing k = .fetchFail)
    (hk2 : env2.listing k = .ok [])
    (hother : ∀ p, p ≠ k → env.listing p = env2.listing p)
    (hdet : ∀ u, env.detail u = env2.detail u) :
    fetch_and_process env cuisine c0 = fetch_and_process env2 cuisine c0 := by
  have hdish : ∀ (s : JobState) (d : String × String),
      process_dish env cuisine s d = process_dish env2 cuisine s d := by
    intro s d
    simp only [process_dish, hdet]
  have hpage : ∀ (s : JobState) (p : Nat),
      process_page env cuisine s p = process_page env2 cuisine s p := by
    intro s p
    by_cases hp : p = k
    · subst hp
      simp [process_page, hk, hk2, get_data]
    · rw [process_page, process_page, hother p hp]
      exact foldl_fn_congr _ _ hdish _ s
  unfold fetch_and_process
  rw [hland]
  exact foldl_fn_congr _ _ hpage _ _

/-- C8 witness: the amended statement evaluated on the concrete
two-page oracles whose first page fails (resp. is empty). -/
theorem C8_page_failure_does_not_abort_witness :
    fetch_and_process pageFailEnv "lucai" 1 =
      fetch_and_process pageEmptyEnv "lucai" 1 :=
  C8_page_failure_does_not_abort pageFailEnv pageEmptyEnv "lucai" 1 1
    rfl rfl rfl
    (fun p hp => by simp [pageFailEnv, pageEmptyEnv, hp])
    (fun u => rfl)

/-- C9 counterexample: two categories run on identical oracles, and
each writes its one image into the very same directory
./CAIXI/CAIPING_data/images — the destination passed to `detail_get`
is a constant, not a per-category location, so the image directory is
not scoped to the category; only the file-name prefix differs.  (The
script also never creates this directory: no creation call exists in
the code, so it must pre-exist.) -/
theorem C9_counterexample :
    (fetch_and_process (simpleEnv (.page [["a"]] [true])) "lucai" 1).disk =
        ["./CAIXI/CAIPING_data/images/lucai_1.jpg"] ∧
      (fetch_and_process (simpleEnv (.page [["a"]] [true])) "huicai" 1).disk =
        ["./CAIXI/CAIPING_data/images/huicai_1.jpg"] := by
  decide

/-- C9 amended: every image file any category job writes lies in the
one shared hard-coded directory ./CAIXI/CAIPING_data/images; the
category appears only in the file-name prefix, and the script performs
no directory creation (the directory must already exist). -/
theorem C9_all_categories_share_one_directory (env : JobEnv)
    (cuisine : String) (c0 : Nat) (p : String)
    (hp : p ∈ (fetch_and_process env cuisine c0).disk) :
    ∃ n, p = "./CAIXI/CAIPING_data/images" ++ "/" ++ cuisine ++ "_" ++
      natRepr n ++ ".jpg" := by
  obtain ⟨m, _, hd⟩ := fetch_and_process_diskInv env cuisine c0
  rw [hd] at hp
  rcases List.mem_map.1 hp with ⟨n, _, hpn⟩
  exact ⟨n, by rw [← hpn]; rfl⟩

/-- C9 witness: the amended statement evaluated on the concrete
one-image run of the lucai category. -/
theorem C9_all_categories_share_one_directory_witness :
    ∃ n, "./CAIXI/CAIPING_data/images/lucai_1.jpg" =
      "./CAIXI/CAIPING_data/images" ++ "/" ++ "lucai" ++ "_" ++
        natRepr n ++ ".jpg" :=
  C9_all_categories_share_one_directory (simpleEnv (.page [["a"]] [true]))
    "lucai" 1 "./CAIXI/CAIPING_data/images/lucai_1.jpg" (by decide)

/-- C10: when the detail fetch succeeds but the j-th image fails after
j-1 successful downloads, `detail_get` returns empty text, an empty
image-path list (so none of the j-1 written files receives a manifest
row), and the counter advanced by exactly j-1; the j-1 files written
remain recorded on disk as the numbers issued so far, and any later
download of the same job — which starts at a counter at least as large
as the returned one — never writes a file carrying one of those
numbers again. -/
theorem C10_partial_failure_accounting (paragraphs : List (List String))
    (pre post : List Bool) (hpre : ∀ b ∈ pre, b = true)
    (dir cuisine : String) (c : Nat) :
    (detail_get (.page paragraphs (pre ++ false :: post)) dir cuisine c).text = "" ∧
      (detail_get (.page paragraphs (pre ++ false :: post)) dir cuisine c).img_paths = [] ∧
      (detail_get (.page paragraphs (pre ++ false :: post)) dir cuisine c).img_counter =
        c + pre.length ∧
      (detail_get (.page paragraphs (pre ++ false :: post)) dir cuisine c).written =
        (List.range' c pre.length).map (imgPath dir cuisine) ∧
      ∀ (page2 : DetailPage) (c2 : Nat), c + pre.length ≤ c2 →
        ∀ p ∈ (detail_get page2 dir cuisine c2).written,
          p ∉ (detail_get (.page paragraphs (pre ++ false :: post)) dir cuisine c).written := by
  have hall : (pre ++ false :: post).all (fun b => b) = false := by
    simp [List.all_append]
  have h1 : pre.takeWhile (fun b => b) = pre :=
    List.takeWhile_eq_self_iff.2 (by intro x hx; simp [hpre x hx])
  have htw : (pre ++ false :: post).takeWhile (fun b => b) = pre := by
    rw [List.takeWhile_append, h1]
    simp [List.takeWhile_cons]
  have hres : detail_get (.page paragraphs (pre ++ false :: post)) dir cuisine c =
      ⟨"", [], c + pre.length,
        (List.range' c pre.length).map (imgPath dir cuisine)⟩ := by
    rw [detail_get, download_images_eq, hall, htw]
    simp
  refine ⟨by rw [hres], by rw [hres], by rw [hres], by rw [hres], ?_⟩
  intro page2 c2 hc2 p hp2 hpmem
  rw [hres] at hpmem
  obtain ⟨L, _, hw2⟩ := detail_get_written page2 dir cuisine c2
  rw [hw2] at hp2
  rcases List.mem_map.1 hp2 with ⟨n, hn, hpn⟩
  rcases List.mem_map.1 hpmem with ⟨n2, hn2, hpn2⟩
  have heq : imgPath dir cuisine n2 = imgPath dir cuisine n := by
    rw [hpn, hpn2]
  have hnn := imgPath_inj dir cuisine heq
  rcases List.mem_range'.1 hn with ⟨i, hi, rfl⟩
  rcases List.mem_range'.1 hn2 with ⟨j, hj, rfl⟩
  omega

/-- C10 witness: the statement evaluated on a concrete detail page with
one successful image followed by a failing one and one more that is
never attempted. -/
theorem C10_partial_failure_accounting_witness :
    (detail_get (.page [["t"]] ([true] ++ false :: [true])) "d" "lucai" 5).text = "" ∧
      (detail_get (.page [["t"]] ([true] ++ false :: [true])) "d" "lucai" 5).img_paths = [] ∧
      (detail_get (.page [["t"]] ([true] ++ false :: [true])) "d" "lucai" 5).img_counter = 6 ∧
      (detail_get (.page [["t"]] ([true] ++ false :: [true])) "d" "lucai" 5).written =
        (List.range' 5 1).map (imgPath "d" "lucai") ∧
      ∀ (page2 : DetailPage) (c2 : Nat), 6 ≤ c2 →
        ∀ p ∈ (detail_get page2 "d" "lucai" c2).written,
          p ∉ (detail_get (.page [["t"]] ([true] ++ false :: [true])) "d" "lucai" 5).written :=
  C10_partial_failure_accounting [["t"]] [true] [true] (by decide) "d" "lucai" 5

end Multimodule
